import Mathlib

/-!
Shallow embedding of the workload-aware flow-control core of the
gateway-api-inference-extension repository.

Sources embedded:
* `pkg/epp/datastore/workload_registry.go` — `WorkloadMetrics`,
  `WorkloadRegistry` and its operations (`WorkloadHandleNewRequest`,
  `WorkloadHandleDispatchedRequest`, `WorkloadHandleCompletedRequest`,
  `GetRequestRate`, `GetMetrics`, `cleanup`).
* the workload-aware ordering policy source (`WorkloadAwarePolicyConfig`,
  `DefaultWorkloadAwarePolicyConfig`, `WorkloadAwarePolicy.computeScore`,
  `WorkloadAwarePolicy.Less`).

Modelling conventions: Go `time.Time` and `time.Duration` are rational
nanosecond counts (`ℚ`); Go `float64` arithmetic is modelled exactly over `ℚ`
(including the `float64`-to-`time.Duration` store of the EMA, whose sub-
nanosecond rounding is abstracted away); Go `int`/`int64` are `Int`; the
`sync.Map` of the registry is an association list with unique keys; Go `nil`
pointers/interfaces are `Option`.
-/

namespace WorkloadAware

/-- Nanoseconds per second: `time.Duration(x).Seconds()` divides by this. -/
def nsPerSecond : ℚ := 1000000000

/-- One `time.Minute` in nanoseconds. -/
def minuteNs : ℚ := 60 * nsPerSecond

/-- `WorkloadContext` from `workload_registry.go`: workload identity and
priority extracted from the `x-workload-context` header. -/
structure WorkloadContext where
  workloadID : String
  criticality : Int
  deriving Repr, DecidableEq

/-- `WorkloadMetrics` from `workload_registry.go` (current version, with EMA
wait-time tracking).  The Go zero value of every numeric field is `0`. -/
structure WorkloadMetrics where
  workloadID : String
  totalRequests : Int := 0
  activeRequests : Int := 0
  slidingWindowRequests : Int := 0
  windowStartTime : ℚ := 0
  lastRequestTime : ℚ := 0
  averageWaitTime : ℚ := 0
  dispatchedCount : Int := 0
  emaAlpha : ℚ := 0
  deriving Repr, DecidableEq

/-- `WorkloadRegistry`: the `sync.Map` keyed by workload id becomes an
association list; `windowDuration` is in nanoseconds. -/
structure WorkloadRegistry where
  windowDuration : ℚ
  workloads : List (String × WorkloadMetrics)
  deriving Repr, DecidableEq

/-- `NewWorkloadRegistry`: a non-positive window duration defaults to 60s. -/
def NewWorkloadRegistry (windowDuration : ℚ) : WorkloadRegistry :=
  { windowDuration := if windowDuration ≤ 0 then 60 * nsPerSecond else windowDuration
    workloads := [] }

/-- `sync.Map.Load`: first binding of the key in the association list. -/
def findWorkload : List (String × WorkloadMetrics) → String → Option WorkloadMetrics
  | [], _ => none
  | (k, m) :: rest, id => if k = id then some m else findWorkload rest id

/-- Store a value under a key: replaces the first existing binding, otherwise
appends a fresh one (the write half of `sync.Map.LoadOrStore` / in-place
mutation of the entry returned by `Load`). -/
def setWorkload : List (String × WorkloadMetrics) → String → WorkloadMetrics →
    List (String × WorkloadMetrics)
  | [], id, m => [(id, m)]
  | (k, m0) :: rest, id, m =>
    if k = id then (k, m) :: rest else (k, m0) :: setWorkload rest id m

/-- `WorkloadHandleNewRequest`: `LoadOrStore` a zero entry stamped with `now`,
then increment `TotalRequests` and `ActiveRequests`, refresh
`LastRequestTime`, and update the sliding window (reset to 1 when the window
elapsed, else increment). -/
def WorkloadHandleNewRequest (wr : WorkloadRegistry) (now : ℚ) (workloadID : String) :
    WorkloadRegistry :=
  let base := (findWorkload wr.workloads workloadID).getD
    { workloadID := workloadID, windowStartTime := now, lastRequestTime := now }
  let m1 := { base with
    totalRequests := base.totalRequests + 1
    activeRequests := base.activeRequests + 1
    lastRequestTime := now }
  let m2 :=
    if now - m1.windowStartTime > wr.windowDuration then
      { m1 with windowStartTime := now, slidingWindowRequests := 1 }
    else
      { m1 with slidingWindowRequests := m1.slidingWindowRequests + 1 }
  { wr with workloads := setWorkload wr.workloads workloadID m2 }

/-- `WorkloadHandleDispatchedRequest`: no-op on unknown ids; otherwise set the
alpha default (0.2) when unset, then first dispatch stores the wait directly
and later dispatches blend `alpha*wait + (1-alpha)*oldAvg`; finally increment
`DispatchedCount`. -/
def WorkloadHandleDispatchedRequest (wr : WorkloadRegistry) (workloadID : String)
    (waitTime : ℚ) : WorkloadRegistry :=
  match findWorkload wr.workloads workloadID with
  | none => wr
  | some m =>
    let alpha := if m.emaAlpha = 0 then (1 / 5 : ℚ) else m.emaAlpha
    let m1 := { m with emaAlpha := alpha }
    let m2 :=
      if m1.dispatchedCount = (0 : Int) then
        { m1 with averageWaitTime := waitTime }
      else
        { m1 with averageWaitTime := alpha * waitTime + (1 - alpha) * m1.averageWaitTime }
    { wr with workloads :=
        setWorkload wr.workloads workloadID { m2 with dispatchedCount := m2.dispatchedCount + 1 } }

/-- `WorkloadHandleCompletedRequest`: no-op on unknown ids; decrements
`ActiveRequests` only when it is positive. -/
def WorkloadHandleCompletedRequest (wr : WorkloadRegistry) (workloadID : String) :
    WorkloadRegistry :=
  match findWorkload wr.workloads workloadID with
  | none => wr
  | some m =>
    if m.activeRequests > 0 then
      { wr with workloads :=
          setWorkload wr.workloads workloadID { m with activeRequests := m.activeRequests - 1 } }
    else wr

/-- `GetRequestRate`: 0 for unknown ids, expired windows and zero window age;
otherwise `SlidingWindowRequests / windowAge.Seconds()`. -/
def GetRequestRate (wr : WorkloadRegistry) (now : ℚ) (workloadID : String) : ℚ :=
  match findWorkload wr.workloads workloadID with
  | none => 0
  | some m =>
    let windowAge := now - m.windowStartTime
    if windowAge > wr.windowDuration then 0
    else if windowAge / nsPerSecond = 0 then 0
    else (m.slidingWindowRequests : ℚ) / (windowAge / nsPerSecond)

/-- `GetMetrics`: a snapshot copy of the entry, `none` when unknown.  In the
pure model the copy is the lookup itself. -/
def GetMetrics (wr : WorkloadRegistry) (workloadID : String) : Option WorkloadMetrics :=
  findWorkload wr.workloads workloadID

/-- The 5-minute inactivity threshold of `cleanup`. -/
def inactiveThreshold : ℚ := 5 * minuteNs

/-- `cleanup`: drop every entry with `ActiveRequests == 0` whose
`LastRequestTime` is more than 5 minutes before `now`. -/
def cleanup (wr : WorkloadRegistry) (now : ℚ) : WorkloadRegistry :=
  { wr with workloads := wr.workloads.filter fun p =>
      !(decide (p.2.activeRequests = 0 ∧ now - p.2.lastRequestTime > inactiveThreshold)) }

/-- One registry lifecycle event, as issued by the admission path (§4.4) and
the reaper loop. -/
inductive RegEvent where
  | newReq (now : ℚ) (workloadID : String)
  | dispatched (workloadID : String) (waitTime : ℚ)
  | completed (workloadID : String)
  | cleanupAt (now : ℚ)
  deriving Repr, DecidableEq

/-- Apply one event to the registry. -/
def regStep (wr : WorkloadRegistry) : RegEvent → WorkloadRegistry
  | .newReq now id => WorkloadHandleNewRequest wr now id
  | .dispatched id w => WorkloadHandleDispatchedRequest wr id w
  | .completed id => WorkloadHandleCompletedRequest wr id
  | .cleanupAt now => cleanup wr now

/-- Run a finite event sequence from the empty registry. -/
def runEvents (windowDuration : ℚ) (evs : List RegEvent) : WorkloadRegistry :=
  evs.foldl regStep (NewWorkloadRegistry windowDuration)

/-- `WorkloadAwarePolicyConfig` from the ordering-policy source. -/
structure WorkloadAwarePolicyConfig where
  waitTimeWeight : ℚ
  criticalityWeight : ℚ
  requestRateWeight : ℚ
  maxWaitTimeSeconds : ℚ
  maxRequestRate : ℚ
  deriving Repr, DecidableEq

/-- `DefaultWorkloadAwarePolicyConfig`: weights 0.4/0.4/0.2, caps 60s and
rate 100. -/
def DefaultWorkloadAwarePolicyConfig : WorkloadAwarePolicyConfig :=
  { waitTimeWeight := 2 / 5
    criticalityWeight := 2 / 5
    requestRateWeight := 1 / 5
    maxWaitTimeSeconds := 60
    maxRequestRate := 100 }

/-- A queued item as seen by the policy: the wrapped request's id, its enqueue
time, and its (possibly absent) workload context. -/
structure QueueItem where
  id : String
  enqueueTime : ℚ
  workloadCtx : Option WorkloadContext
  deriving Repr, DecidableEq

/-- `WorkloadAwarePolicy`: config plus a possibly-nil registry pointer. -/
structure WorkloadAwarePolicy where
  config : WorkloadAwarePolicyConfig
  workloadRegistry : Option WorkloadRegistry
  deriving Repr, DecidableEq

/-- The workload id used by `computeScore`: the context's id, or `"default"`
when the item carries no context. -/
def itemWorkloadID : Option WorkloadContext → String
  | none => "default"
  | some c => c.workloadID

/-- The criticality value `computeScore` actually scores with: default 3 when
the item carries no context, and any value outside `[1,5]` is replaced by 3
(the validation branch of `computeScore`). -/
def effectiveCriticality : Option WorkloadContext → Int
  | none => 3
  | some c => if c.criticality < 1 ∨ c.criticality > 5 then 3 else c.criticality

/-- The average-wait component `computeScore` reads from the registry:
`metrics.AverageWaitTime.Seconds()`, or 0 when the registry is nil or the
workload unknown. -/
def registryAvgWaitSeconds (reg : Option WorkloadRegistry) (workloadID : String) : ℚ :=
  match reg with
  | none => 0
  | some wr =>
    match GetMetrics wr workloadID with
    | none => 0
    | some m => m.averageWaitTime / nsPerSecond

/-- The request-rate component `computeScore` reads from the registry, or 0
when the registry is nil. -/
def registryRequestRate (reg : Option WorkloadRegistry) (now : ℚ) (workloadID : String) : ℚ :=
  match reg with
  | none => 0
  | some wr => GetRequestRate wr now workloadID

/-- The normalisation-and-weighting tail of `computeScore`:
`min(wait/maxWait,1)*wW + (crit/5)*cW - min(rate/maxRate,1)*rW`. -/
def scoreFromComponents (config : WorkloadAwarePolicyConfig) (criticality : Int)
    (avgWaitTime requestRate : ℚ) : ℚ :=
  let normalizedWait := min (avgWaitTime / config.maxWaitTimeSeconds) 1
  let normalizedCrit := (criticality : ℚ) / 5
  let normalizedRate := min (requestRate / config.maxRequestRate) 1
  normalizedWait * config.waitTimeWeight + normalizedCrit * config.criticalityWeight -
    normalizedRate * config.requestRateWeight

/-- `WorkloadAwarePolicy.computeScore`: extract id and validated criticality
from the item, read EMA wait and request rate from the registry, then
normalise and weight.  (The Go `now` parameter is passed but unused by the
source body's wait component; it only feeds `GetRequestRate`.) -/
def computeScore (p : WorkloadAwarePolicy) (item : QueueItem) (now : ℚ) : ℚ :=
  scoreFromComponents p.config (effectiveCriticality item.workloadCtx)
    (registryAvgWaitSeconds p.workloadRegistry (itemWorkloadID item.workloadCtx))
    (registryRequestRate p.workloadRegistry now (itemWorkloadID item.workloadCtx))

/-- `WorkloadAwarePolicy.Less`: nil items are lowest priority, higher score
wins, exact score ties fall back to earlier enqueue time (FCFS). -/
def Less (p : WorkloadAwarePolicy) (now : ℚ) : Option QueueItem → Option QueueItem → Bool
  | none, none => false
  | none, some _ => false
  | some _, none => true
  | some a, some b =>
    let scoreA := computeScore p a now
    let scoreB := computeScore p b now
    if scoreA ≠ scoreB then decide (scoreA > scoreB)
    else decide (a.enqueueTime < b.enqueueTime)

/-- The shape of the `x-workload-context` header after the transport layer:
absent/empty header, unparseable JSON, or parsed JSON carrying a workload id
and an optionally-present criticality field. -/
inductive WorkloadHeader where
  | missing
  | malformed
  | parsed (workloadID : String) (criticality : Option Int)
  deriving Repr, DecidableEq

/-- Modelled from the spec: the current `extractWorkloadContext` of
`pkg/epp/handlers/request.go` is absent from the sources (only its unit test
is present).  Per the spec's header contract: a missing header or malformed
JSON synthesizes a unique workload id with default criticality 3; an empty
`workload_id` is likewise replaced by a synthesized unique id; a criticality
outside `[1,5]` is clamped to the nearest bound at parse time; the default 3
applies only when the criticality field is entirely absent.  `freshID` stands
for the uniquely generated identifier. -/
def extractWorkloadContext (freshID : String) : WorkloadHeader → WorkloadContext
  | .missing => { workloadID := freshID, criticality := 3 }
  | .malformed => { workloadID := freshID, criticality := 3 }
  | .parsed wid none =>
    { workloadID := if wid = "" then freshID else wid, criticality := 3 }
  | .parsed wid (some c) =>
    { workloadID := if wid = "" then freshID else wid
      criticality := if c < 1 then 1 else if c > 5 then 5 else c }

theorem findWorkload_eq_none_iff {ws : List (String × WorkloadMetrics)} {id : String} :
    findWorkload ws id = none ↔ id ∉ ws.map Prod.fst := by
  induction ws with
  | nil => simp [findWorkload]
  | cons p rest ih =>
    obtain ⟨k, m⟩ := p
    by_cases hk : k = id
    · subst hk; simp [findWorkload]
    · simp [findWorkload, hk, ih, Ne.symm hk]

theorem findWorkload_mem {ws : List (String × WorkloadMetrics)} {id : String}
    {m : WorkloadMetrics} (h : findWorkload ws id = some m) : (id, m) ∈ ws := by
  induction ws with
  | nil => simp [findWorkload] at h
  | cons p rest ih =>
    obtain ⟨k, m0⟩ := p
    by_cases hk : k = id
    · subst hk
      simp [findWorkload] at h
      subst h
      exact List.mem_cons_self _ _
    · simp [findWorkload, hk] at h
      exact List.mem_cons_of_mem _ (ih h)

theorem findWorkload_set_same {ws : List (String × WorkloadMetrics)} {id : String}
    {m : WorkloadMetrics} : findWorkload (setWorkload ws id m) id = some m := by
  induction ws with
  | nil => simp [setWorkload, findWorkload]
  | cons p rest ih =>
    obtain ⟨k, m0⟩ := p
    by_cases hk : k = id
    · subst hk; simp [setWorkload, findWorkload]
    · simp [setWorkload, findWorkload, hk, ih]

theorem findWorkload_set_other {ws : List (String × WorkloadMetrics)} {id id2 : String}
    {m : WorkloadMetrics} (h : id2 ≠ id) :
    findWorkload (setWorkload ws id m) id2 = findWorkload ws id2 := by
  induction ws with
  | nil => simp [setWorkload, findWorkload, Ne.symm h]
  | cons p rest ih =>
    obtain ⟨k, m0⟩ := p
    by_cases hk : k = id
    · subst hk; simp [setWorkload, findWorkload, Ne.symm h]
    · by_cases hk2 : k = id2
      · subst hk2; simp [setWorkload, findWorkload, hk]
      · simp [setWorkload, findWorkload, hk, hk2, ih]

theorem mem_setWorkload {ws : List (String × WorkloadMetrics)} {id : String}
    {m : WorkloadMetrics} {p : String × WorkloadMetrics} (h : p ∈ setWorkload ws id m) :
    p = (id, m) ∨ p ∈ ws := by
  induction ws with
  | nil => simpa [setWorkload] using h
  | cons q rest ih =>
    obtain ⟨k, m0⟩ := q
    by_cases hk : k = id
    · subst hk
      simp [setWorkload] at h
      rcases h with h | h
      · exact Or.inl (by simp [h])
      · exact Or.inr (List.mem_cons_of_mem _ h)
    · simp [setWorkload, hk] at h
      rcases h with h | h
      · exact Or.inr (by simp [h])
      · rcases ih h with h2 | h2
        · exact Or.inl h2
        · exact Or.inr (List.mem_cons_of_mem _ h2)

theorem findWorkload_filter {ws : List (String × WorkloadMetrics)} {id : String}
    {m : WorkloadMetrics} (hnd : (ws.map Prod.fst).Nodup)
    (hf : findWorkload ws id = some m) (p : String × WorkloadMetrics → Bool) :
    findWorkload (ws.filter p) id = if p (id, m) then some m else none := by
  induction ws with
  | nil => simp [findWorkload] at hf
  | cons q rest ih =>
    obtain ⟨k, m0⟩ := q
    simp only [List.map_cons, List.nodup_cons] at hnd
    by_cases hk : k = id
    · subst hk
      have hm : m0 = m := by simpa [findWorkload] using hf
      subst hm
      by_cases hp : p (k, m0)
      · simp [List.filter_cons, hp, findWorkload]
      · have hnone2 : findWorkload (rest.filter p) k = none := by
          rw [findWorkload_eq_none_iff]
          intro hmem
          simp only [List.mem_map] at hmem
          obtain ⟨q, hq, rfl⟩ := hmem
          exact hnd.1 (List.mem_map_of_mem _ (List.mem_of_mem_filter hq))
        simp [List.filter_cons, hp, hnone2]
    · simp only [findWorkload, if_neg hk] at hf
      by_cases hp : p (k, m0)
      · simp [List.filter_cons, hp, findWorkload, hk, ih hnd.2 hf]
      · simp [List.filter_cons, hp, ih hnd.2 hf]

theorem mem_keys_setWorkload {ws : List (String × WorkloadMetrics)} {id a : String}
    {m : WorkloadMetrics} (h : a ∈ (setWorkload ws id m).map Prod.fst) :
    a = id ∨ a ∈ ws.map Prod.fst := by
  simp only [List.mem_map] at h
  obtain ⟨q, hq, rfl⟩ := h
  rcases mem_setWorkload hq with h2 | h2
  · exact Or.inl (by simp [h2])
  · exact Or.inr (List.mem_map_of_mem _ h2)

theorem keysNodup_setWorkload {ws : List (String × WorkloadMetrics)} {id : String}
    {m : WorkloadMetrics} (hnd : (ws.map Prod.fst).Nodup) :
    ((setWorkload ws id m).map Prod.fst).Nodup := by
  induction ws with
  | nil => simp [setWorkload]
  | cons q rest ih =>
    obtain ⟨k, m0⟩ := q
    simp only [List.map_cons, List.nodup_cons] at hnd
    by_cases hk : k = id
    · subst hk
      simp [setWorkload, List.nodup_cons, hnd.1, hnd.2]
    · simp only [setWorkload, if_neg hk, List.map_cons, List.nodup_cons]
      refine ⟨fun hmem => ?_, ih hnd.2⟩
      rcases mem_keys_setWorkload hmem with h2 | h2
      · exact hk h2
      · exact hnd.1 h2

/-- Per-entry counter invariant: `0 ≤ active ≤ total` and a non-negative
sliding-window counter. -/
def MetricsInv (m : WorkloadMetrics) : Prop :=
  0 ≤ m.activeRequests ∧ m.activeRequests ≤ m.totalRequests ∧ 0 ≤ m.slidingWindowRequests

/-- Registry-wide counter invariant. -/
def RegInv (wr : WorkloadRegistry) : Prop := ∀ p ∈ wr.workloads, MetricsInv p.2

theorem regStep_inv {wr : WorkloadRegistry} (e : RegEvent) (h : RegInv wr) :
    RegInv (regStep wr e) := by
  cases e with
  | newReq now id =>
    intro p hp
    simp only [regStep, WorkloadHandleNewRequest] at hp
    rcases mem_setWorkload hp with h2 | h2
    · subst h2
      cases hfind : findWorkload wr.workloads id with
      | none =>
        simp only [hfind, Option.getD]
        constructor
        · split <;> norm_num
        · constructor
          · split <;> norm_num
          · split <;> norm_num
      | some m0 =>
        have hm0 : MetricsInv m0 := by simpa using h _ (findWorkload_mem hfind)
        obtain ⟨h1, h2, h3⟩ := hm0
        simp only [hfind, Option.getD]
        refine ⟨?_, ?_, ?_⟩ <;> · split <;> (simp; all_goals omega)
    · exact h _ h2
  | dispatched id w =>
    intro p hp
    simp only [regStep, WorkloadHandleDispatchedRequest] at hp
    cases hfind : findWorkload wr.workloads id with
    | none => simp only [hfind] at hp; exact h _ hp
    | some m0 =>
      have hm0 : MetricsInv m0 := by simpa using h _ (findWorkload_mem hfind)
      simp only [hfind] at hp
      rcases mem_setWorkload hp with h2 | h2
      · subst h2
        obtain ⟨h1, h2, h3⟩ := hm0
        constructor
        · split <;> simpa
        · constructor
          · split <;> simpa
          · split <;> simpa
      · exact h _ h2
  | completed id =>
    intro p hp
    simp only [regStep, WorkloadHandleCompletedRequest] at hp
    cases hfind : findWorkload wr.workloads id with
    | none => simp only [hfind] at hp; exact h _ hp
    | some m0 =>
      have hm0 : MetricsInv m0 := by simpa using h _ (findWorkload_mem hfind)
      simp only [hfind] at hp
      by_cases hact : m0.activeRequests > 0
      · simp only [if_pos hact] at hp
        rcases mem_setWorkload hp with h2 | h2
        · subst h2
          obtain ⟨h1, h2, h3⟩ := hm0
          refine ⟨by simp; omega, by simp; omega, by simpa using h3⟩
        · exact h _ h2
      · simp only [if_neg hact] at hp
        exact h _ hp
  | cleanupAt now =>
    intro p hp
    simp only [regStep, cleanup] at hp
    exact h _ (List.mem_of_mem_filter hp)

/-- Any predicate preserved by `regStep` holds after running any event list. -/
theorem foldl_regStep_pres {P : WorkloadRegistry → Prop}
    (hstep : ∀ wr e, P wr → P (regStep wr e)) :
    ∀ (evs : List RegEvent) (init : WorkloadRegistry), P init → P (evs.foldl regStep init) := by
  intro evs
  induction evs with
  | nil => intro init h; simpa using h
  | cons e rest ih =>
    intro init h
    simpa using ih (regStep init e) (hstep init e h)

theorem runEvents_inv (windowDuration : ℚ) (evs : List RegEvent) :
    RegInv (runEvents windowDuration evs) := by
  refine foldl_regStep_pres (fun wr e h => regStep_inv e h) evs _ ?_
  intro p hp
  simp [NewWorkloadRegistry] at hp

/-- All window-start stamps in the registry are at or before time `t`. -/
def TimeBound (t : ℚ) (wr : WorkloadRegistry) : Prop :=
  ∀ p ∈ wr.workloads, p.2.windowStartTime ≤ t

/-- The timestamps an event carries are at or before `t` (events without a
timestamp impose nothing). -/
def EventTimeLE (t : ℚ) : RegEvent → Prop
  | .newReq now _ => now ≤ t
  | .cleanupAt now => now ≤ t
  | _ => True

theorem regStep_timeBound {t : ℚ} {wr : WorkloadRegistry} {e : RegEvent}
    (h : TimeBound t wr) (he : EventTimeLE t e) : TimeBound t (regStep wr e) := by
  cases e with
  | newReq now id =>
    intro p hp
    simp only [regStep, WorkloadHandleNewRequest] at hp
    simp only [EventTimeLE] at he
    rcases mem_setWorkload hp with h2 | h2
    · subst h2
      cases hfind : findWorkload wr.workloads id with
      | none => simp only [hfind, Option.getD]; split <;> simpa using he
      | some m0 =>
        have hm0 : m0.windowStartTime ≤ t := by simpa using h _ (findWorkload_mem hfind)
        simp only [hfind, Option.getD]
        split <;> simpa using (by assumption)
    · exact h _ h2
  | dispatched id w =>
    intro p hp
    simp only [regStep, WorkloadHandleDispatchedRequest] at hp
    cases hfind : findWorkload wr.workloads id with
    | none => simp only [hfind] at hp; exact h _ hp
    | some m0 =>
      have hm0 : m0.windowStartTime ≤ t := by simpa using h _ (findWorkload_mem hfind)
      simp only [hfind] at hp
      rcases mem_setWorkload hp with h2 | h2
      · subst h2; split <;> simpa using hm0
      · exact h _ h2
  | completed id =>
    intro p hp
    simp only [regStep, WorkloadHandleCompletedRequest] at hp
    cases hfind : findWorkload wr.workloads id with
    | none => simp only [hfind] at hp; exact h _ hp
    | some m0 =>
      have hm0 : m0.windowStartTime ≤ t := by simpa using h _ (findWorkload_mem hfind)
      simp only [hfind] at hp
      by_cases hact : m0.activeRequests > 0
      · simp only [if_pos hact] at hp
        rcases mem_setWorkload hp with h2 | h2
        · subst h2; simpa using hm0
        · exact h _ h2
      · simp only [if_neg hact] at hp; exact h _ hp
  | cleanupAt now =>
    intro p hp
    simp only [regStep, cleanup] at hp
    exact h _ (List.mem_of_mem_filter hp)

/-- A predicate preserved by steps whose events satisfy `Q` holds after
running any event list all of whose events satisfy `Q`. -/
theorem foldl_regStep_pres_of {P : WorkloadRegistry → Prop} {Q : RegEvent → Prop}
    (hstep : ∀ wr e, Q e → P wr → P (regStep wr e)) :
    ∀ (evs : List RegEvent) (init : WorkloadRegistry),
      (∀ e ∈ evs, Q e) → P init → P (evs.foldl regStep init) := by
  intro evs
  induction evs with
  | nil => intro init _ h; simpa using h
  | cons e rest ih =>
    intro init hq h
    simpa using ih (regStep init e) (fun e2 he2 => hq e2 (List.mem_cons_of_mem _ he2))
      (hstep init e (hq e (List.mem_cons_self _ _)) h)

theorem runEvents_timeBound {t windowDuration : ℚ} {evs : List RegEvent}
    (h : ∀ e ∈ evs, EventTimeLE t e) : TimeBound t (runEvents windowDuration evs) := by
  refine foldl_regStep_pres_of (fun wr e hq hw => regStep_timeBound hw hq) evs _ h ?_
  intro p hp
  simp [NewWorkloadRegistry] at hp

/-- C1: `WorkloadHandleDispatchedRequest(workload_id, wait_time)` is a no-op
when the workload has no registry entry (it never creates one); otherwise, if
`dispatched_count` is 0 it sets `average_wait_time` exactly to `wait_time`,
else it sets it to `alpha*wait_time + (1-alpha)*previous_average` with
`alpha` defaulting to 0.2 when unset, and in both cases it increments
`dispatched_count` by 1. -/
theorem C1_dispatched_ema_spec :
    (∀ (wr : WorkloadRegistry) (id : String) (w : ℚ),
      findWorkload wr.workloads id = none → WorkloadHandleDispatchedRequest wr id w = wr) ∧
    (∀ (wr : WorkloadRegistry) (id : String) (w : ℚ) (m : WorkloadMetrics),
      findWorkload wr.workloads id = some m → m.dispatchedCount = 0 →
      ∃ m2, findWorkload (WorkloadHandleDispatchedRequest wr id w).workloads id = some m2 ∧
        m2.averageWaitTime = w ∧ m2.dispatchedCount = m.dispatchedCount + 1) ∧
    (∀ (wr : WorkloadRegistry) (id : String) (w : ℚ) (m : WorkloadMetrics),
      findWorkload wr.workloads id = some m → m.dispatchedCount ≠ 0 →
      ∃ m2, findWorkload (WorkloadHandleDispatchedRequest wr id w).workloads id = some m2 ∧
        m2.averageWaitTime =
          (if m.emaAlpha = 0 then (1 / 5 : ℚ) else m.emaAlpha) * w +
            (1 - if m.emaAlpha = 0 then (1 / 5 : ℚ) else m.emaAlpha) * m.averageWaitTime ∧
        m2.dispatchedCount = m.dispatchedCount + 1) := by
  refine ⟨?_, ?_, ?_⟩
  · intro wr id w hf
    simp [WorkloadHandleDispatchedRequest, hf]
  · intro wr id w m hf hd
    simp only [WorkloadHandleDispatchedRequest, hf]
    refine ⟨_, findWorkload_set_same, ?_, ?_⟩ <;> simp [hd]
  · intro wr id w m hf hd
    simp only [WorkloadHandleDispatchedRequest, hf]
    refine ⟨_, findWorkload_set_same, ?_, ?_⟩ <;> simp [hd]

/-- Concrete registry for the C1 witness: one workload `"w"` with a fresh
entry (zero counters). -/
def wrC1 : WorkloadRegistry :=
  { windowDuration := 60 * nsPerSecond, workloads := [(("w"), { workloadID := ("w") })] }

theorem C1_dispatched_ema_witness :
    findWorkload wrC1.workloads ("w") = some { workloadID := ("w") } ∧
    ({ workloadID := ("w") } : WorkloadMetrics).dispatchedCount = 0 ∧
    (∃ m2, findWorkload (WorkloadHandleDispatchedRequest wrC1 ("w") 7).workloads ("w") = some m2 ∧
      m2.averageWaitTime = 7 ∧
      m2.dispatchedCount = ({ workloadID := ("w") } : WorkloadMetrics).dispatchedCount + 1) :=
  ⟨by simp [wrC1, findWorkload], rfl,
    C1_dispatched_ema_spec.2.1 wrC1 ("w") 7 _ (by simp [wrC1, findWorkload]) rfl⟩

/-- C8: `cleanup` removes a workload entry exactly when that workload has
`active_requests = 0` and the time since `last_request_time` strictly exceeds
the 5-minute inactivity threshold; an entry with positive `active_requests`
is never removed, regardless of its age. -/
theorem C8_cleanup_spec :
    (∀ (wr : WorkloadRegistry) (now : ℚ) (id : String) (m : WorkloadMetrics),
      (wr.workloads.map Prod.fst).Nodup → findWorkload wr.workloads id = some m →
      (findWorkload (cleanup wr now).workloads id = none ↔
        (m.activeRequests = 0 ∧ now - m.lastRequestTime > inactiveThreshold))) ∧
    (∀ (wr : WorkloadRegistry) (now : ℚ) (id : String) (m : WorkloadMetrics),
      (wr.workloads.map Prod.fst).Nodup → findWorkload wr.workloads id = some m →
      0 < m.activeRequests → findWorkload (cleanup wr now).workloads id = some m) := by
  constructor
  · intro wr now id m hnd hf
    have h := findWorkload_filter hnd hf
      (fun p => !(decide (p.2.activeRequests = 0 ∧ now - p.2.lastRequestTime > inactiveThreshold)))
    simp only [cleanup]
    rw [h]
    by_cases hc : m.activeRequests = 0 ∧ now - m.lastRequestTime > inactiveThreshold
    · simp [hc]
    · simp [hc]
  · intro wr now id m hnd hf hact
    have h := findWorkload_filter hnd hf
      (fun p => !(decide (p.2.activeRequests = 0 ∧ now - p.2.lastRequestTime > inactiveThreshold)))
    simp only [cleanup]
    rw [h]
    have : ¬(m.activeRequests = 0 ∧ now - m.lastRequestTime > inactiveThreshold) := by
      rintro ⟨h0, _⟩; omega
    simp [this]

/-- Concrete registry for the C8 witness: workload `"idle"` has no active
requests and a last-request stamp far in the past; workload `"busy"` has one
active request and the same ancient stamp. -/
def wrC8 : WorkloadRegistry :=
  { windowDuration := 60 * nsPerSecond
    workloads := [(("idle"), { workloadID := ("idle") }),
      (("busy"), { workloadID := ("busy"), totalRequests := 1, activeRequests := 1 })] }

theorem C8_cleanup_witness :
    (wrC8.workloads.map Prod.fst).Nodup ∧
    findWorkload wrC8.workloads ("idle") = some { workloadID := ("idle") } ∧
    (findWorkload (cleanup wrC8 (301 * nsPerSecond)).workloads ("idle") = none ↔
      (({ workloadID := ("idle") } : WorkloadMetrics).activeRequests = 0 ∧
        301 * nsPerSecond - ({ workloadID := ("idle") } : WorkloadMetrics).lastRequestTime >
          inactiveThreshold)) ∧
    findWorkload (cleanup wrC8 (301 * nsPerSecond)).workloads ("busy") =
      some { workloadID := ("busy"), totalRequests := 1, activeRequests := 1 } :=
  ⟨by simp [wrC8], by simp [wrC8, findWorkload],
    C8_cleanup_spec.1 wrC8 (301 * nsPerSecond) ("idle") _ (by simp [wrC8])
      (by simp [wrC8, findWorkload]),
    C8_cleanup_spec.2 wrC8 (301 * nsPerSecond) ("busy") _ (by simp [wrC8])
      (by simp [wrC8, findWorkload]) (by norm_num)⟩

/-- C5: for every finite sequence of interleaved registry lifecycle calls
starting from the empty registry — including sequences with more
`WorkloadHandleCompletedRequest` events than `WorkloadHandleNewRequest`
events for the same workload id — no workload's `active_requests` counter
ever goes below 0. -/
theorem C5_active_nonneg (windowDuration : ℚ) (evs : List RegEvent) (id : String)
    (m : WorkloadMetrics) (h : findWorkload (runEvents windowDuration evs).workloads id = some m) :
    0 ≤ m.activeRequests :=
  (runEvents_inv windowDuration evs _ (findWorkload_mem h)).1

/-- Event list for the C5 witness: a completion before any new request, one
new request, then two completions (more completions than news). -/
def evsC5 : List RegEvent :=
  [RegEvent.completed ("w"), RegEvent.newReq 0 ("w"), RegEvent.completed ("w"),
    RegEvent.completed ("w")]

/-- The single entry left by `evsC5`. -/
def mC5 : WorkloadMetrics :=
  { workloadID := ("w"), totalRequests := 1, activeRequests := 0, slidingWindowRequests := 1 }

theorem C5_active_nonneg_witness :
    findWorkload (runEvents (60 * nsPerSecond) evsC5).workloads ("w") = some mC5 ∧
    (0 : Int) ≤ mC5.activeRequests :=
  ⟨by norm_num [evsC5, mC5, runEvents, NewWorkloadRegistry, regStep, WorkloadHandleNewRequest,
      WorkloadHandleCompletedRequest, findWorkload, setWorkload, nsPerSecond],
    C5_active_nonneg (60 * nsPerSecond) evsC5 ("w") mC5
      (by norm_num [evsC5, mC5, runEvents, NewWorkloadRegistry, regStep, WorkloadHandleNewRequest,
        WorkloadHandleCompletedRequest, findWorkload, setWorkload, nsPerSecond])⟩

/-- C9: every registry operation preserves `total_requests ≥ active_requests
≥ 0` for every tracked workload: `WorkloadHandleNewRequest` increments both
counters together, `WorkloadHandleCompletedRequest` decrements only
`active_requests` and only when it is positive, and no operation decrements
`total_requests`. -/
theorem C9_counters_spec :
    (∀ (windowDuration : ℚ) (evs : List RegEvent) (id : String) (m : WorkloadMetrics),
      findWorkload (runEvents windowDuration evs).workloads id = some m →
      0 ≤ m.activeRequests ∧ m.activeRequests ≤ m.totalRequests) ∧
    (∀ (wr : WorkloadRegistry) (now : ℚ) (id : String) (m : WorkloadMetrics),
      findWorkload wr.workloads id = some m →
      ∃ m2, findWorkload (WorkloadHandleNewRequest wr now id).workloads id = some m2 ∧
        m2.totalRequests = m.totalRequests + 1 ∧ m2.activeRequests = m.activeRequests + 1) ∧
    (∀ (wr : WorkloadRegistry) (id : String) (m : WorkloadMetrics),
      findWorkload wr.workloads id = some m → 0 < m.activeRequests →
      ∃ m2, findWorkload (WorkloadHandleCompletedRequest wr id).workloads id = some m2 ∧
        m2.activeRequests = m.activeRequests - 1 ∧ m2.totalRequests = m.totalRequests) ∧
    (∀ (wr : WorkloadRegistry) (id : String) (m : WorkloadMetrics),
      findWorkload wr.workloads id = some m → ¬0 < m.activeRequests →
      WorkloadHandleCompletedRequest wr id = wr) ∧
    (∀ (wr : WorkloadRegistry) (e : RegEvent) (id : String) (m m2 : WorkloadMetrics),
      (wr.workloads.map Prod.fst).Nodup →
      findWorkload wr.workloads id = some m →
      findWorkload (regStep wr e).workloads id = some m2 →
      m.totalRequests ≤ m2.totalRequests) := by
  refine ⟨?_, ?_, ?_, ?_, ?_⟩
  · intro windowDuration evs id m h
    have := runEvents_inv windowDuration evs _ (findWorkload_mem h)
    exact ⟨this.1, this.2.1⟩
  · intro wr now id m hf
    simp only [WorkloadHandleNewRequest, hf]
    refine ⟨_, findWorkload_set_same, ?_, ?_⟩ <;> split <;> simp
  · intro wr id m hf hact
    simp only [WorkloadHandleCompletedRequest, hf, if_pos hact]
    exact ⟨_, findWorkload_set_same, by simp, by simp⟩
  · intro wr id m hf hact
    simp [WorkloadHandleCompletedRequest, hf, hact]
  · intro wr e id m m2 hnd hf h2
    cases e with
    | newReq now id2 =>
      by_cases hid : id2 = id
      · subst hid
        simp only [regStep, WorkloadHandleNewRequest, hf, Option.getD_some,
          findWorkload_set_same, Option.some.injEq] at h2
        subst h2
        split <;> simp
      · simp only [regStep, WorkloadHandleNewRequest,
          findWorkload_set_other (fun h => hid h.symm)] at h2
        rw [hf] at h2
        cases h2
        exact le_refl _
    | dispatched id2 w =>
      cases hfind2 : findWorkload wr.workloads id2 with
      | none =>
        simp only [regStep, WorkloadHandleDispatchedRequest, hfind2, hf] at h2
        cases h2
        exact le_refl _
      | some m0 =>
        by_cases hid : id2 = id
        · subst hid
          rw [hfind2] at hf
          cases hf
          simp only [regStep, WorkloadHandleDispatchedRequest, hfind2,
            findWorkload_set_same, Option.some.injEq] at h2
          subst h2
          split <;> simp
        · simp only [regStep, WorkloadHandleDispatchedRequest, hfind2,
            findWorkload_set_other (fun h => hid h.symm)] at h2
          rw [hf] at h2
          cases h2
          exact le_refl _
    | completed id2 =>
      cases hfind2 : findWorkload wr.workloads id2 with
      | none =>
        simp only [regStep, WorkloadHandleCompletedRequest, hfind2, hf] at h2
        cases h2
        exact le_refl _
      | some m0 =>
        by_cases hact : m0.activeRequests > 0
        · by_cases hid : id2 = id
          · subst hid
            rw [hfind2] at hf
            cases hf
            simp only [regStep, WorkloadHandleCompletedRequest, hfind2, if_pos hact,
              findWorkload_set_same, Option.some.injEq] at h2
            subst h2
            simp
          · simp only [regStep, WorkloadHandleCompletedRequest, hfind2, if_pos hact,
              findWorkload_set_other (fun h => hid h.symm)] at h2
            rw [hf] at h2
            cases h2
            exact le_refl _
        · simp only [regStep, WorkloadHandleCompletedRequest, hfind2, if_neg hact, hf] at h2
          cases h2
          exact le_refl _
    | cleanupAt now =>
      have h := findWorkload_filter hnd hf
        (fun p => !(decide (p.2.activeRequests = 0 ∧ now - p.2.lastRequestTime > inactiveThreshold)))
      simp only [regStep, cleanup] at h2
      rw [h] at h2
      by_cases hc : (fun p : String × WorkloadMetrics =>
          !(decide (p.2.activeRequests = 0 ∧ now - p.2.lastRequestTime > inactiveThreshold))) (id, m)
      · rw [if_pos hc] at h2
        cases h2
        exact le_refl _
      · rw [if_neg hc] at h2
        cases h2

/-- Concrete registry for the C9 witness. -/
def wrC9 : WorkloadRegistry :=
  { windowDuration := 60 * nsPerSecond, workloads := [(("w"), { workloadID := ("w") })] }

theorem C9_counters_witness :
    findWorkload wrC9.workloads ("w") = some { workloadID := ("w") } ∧
    (∃ m2, findWorkload (WorkloadHandleNewRequest wrC9 0 ("w")).workloads ("w") = some m2 ∧
      m2.totalRequests = ({ workloadID := ("w") } : WorkloadMetrics).totalRequests + 1 ∧
      m2.activeRequests = ({ workloadID := ("w") } : WorkloadMetrics).activeRequests + 1) :=
  ⟨by simp [wrC9, findWorkload],
    C9_counters_spec.2.1 wrC9 0 ("w") _ (by simp [wrC9, findWorkload])⟩

/-- C10: `GetRequestRate` is total and never divides by zero — when a tracked
workload's window age is exactly zero it returns 0 instead of dividing; it
returns 0 for unknown workloads and expired windows; and on every reachable
registry state (queried at a time no earlier than the recorded event times)
its result is non-negative, `sliding_window_requests` being non-negative in
every reachable state. -/
theorem C10_request_rate_safe :
    (∀ (wr : WorkloadRegistry) (now : ℚ) (id : String),
      findWorkload wr.workloads id = none → GetRequestRate wr now id = 0) ∧
    (∀ (wr : WorkloadRegistry) (now : ℚ) (id : String) (m : WorkloadMetrics),
      findWorkload wr.workloads id = some m → now - m.windowStartTime = 0 →
      GetRequestRate wr now id = 0) ∧
    (∀ (wr : WorkloadRegistry) (now : ℚ) (id : String) (m : WorkloadMetrics),
      findWorkload wr.workloads id = some m → now - m.windowStartTime > wr.windowDuration →
      GetRequestRate wr now id = 0) ∧
    (∀ (windowDuration : ℚ) (evs : List RegEvent) (id : String) (m : WorkloadMetrics),
      findWorkload (runEvents windowDuration evs).workloads id = some m →
      0 ≤ m.slidingWindowRequests) ∧
    (∀ (windowDuration t : ℚ) (evs : List RegEvent) (id : String),
      (∀ e ∈ evs, EventTimeLE t e) →
      0 ≤ GetRequestRate (runEvents windowDuration evs) t id) := by
  refine ⟨?_, ?_, ?_, ?_, ?_⟩
  · intro wr now id hf
    simp [GetRequestRate, hf]
  · intro wr now id m hf h0
    simp only [GetRequestRate, hf, h0]
    split
    · rfl
    · simp [nsPerSecond]
  · intro wr now id m hf hexp
    simp [GetRequestRate, hf, hexp]
  · intro windowDuration evs id m h
    exact (runEvents_inv windowDuration evs _ (findWorkload_mem h)).2.2
  · intro windowDuration t evs id hle
    cases hf : findWorkload (runEvents windowDuration evs).workloads id with
    | none => simp [GetRequestRate, hf]
    | some m =>
      have hsw : 0 ≤ m.slidingWindowRequests :=
        (runEvents_inv windowDuration evs _ (findWorkload_mem hf)).2.2
      have hws : m.windowStartTime ≤ t :=
        runEvents_timeBound hle _ (findWorkload_mem hf)
      have hage : 0 ≤ t - m.windowStartTime := by linarith
      simp only [GetRequestRate, hf]
      split
      · rfl
      · split
        · rfl
        · rename_i hzero
          have hpos : 0 < (t - m.windowStartTime) / nsPerSecond := by
            rcases lt_or_eq_of_le hage with h | h
            · have : (0 : ℚ) < nsPerSecond := by norm_num [nsPerSecond]
              positivity
            · exact absurd (by rw [← h]; norm_num) hzero
          have : (0 : ℚ) ≤ (m.slidingWindowRequests : ℚ) := by exact_mod_cast hsw
          positivity

/-- Event list for the C10 witness: one new request at time 0, then a
dispatch and a completion. -/
def evsC10 : List RegEvent :=
  [RegEvent.newReq 0 ("w"), RegEvent.dispatched ("w") (5 * nsPerSecond),
    RegEvent.completed ("w")]

theorem C10_request_rate_witness :
    (∀ e ∈ evsC10, EventTimeLE nsPerSecond e) ∧
    (0 : ℚ) ≤ GetRequestRate (runEvents (60 * nsPerSecond) evsC10) nsPerSecond ("w") :=
  ⟨by
    intro e he
    simp only [evsC10, List.mem_cons, List.not_mem_nil, or_false] at he
    rcases he with rfl | rfl | rfl <;> (simp [EventTimeLE]; all_goals norm_num [nsPerSecond]),
  C10_request_rate_safe.2.2.2.2 (60 * nsPerSecond) nsPerSecond evsC10 ("w") (by
    intro e he
    simp only [evsC10, List.mem_cons, List.not_mem_nil, or_false] at he
    rcases he with rfl | rfl | rfl <;> (simp [EventTimeLE]; all_goals norm_num [nsPerSecond]))⟩

/-- Query time for the C2 scenario. -/
def nowC2 : ℚ := 1000 * nsPerSecond

/-- C2 workload metrics: criticality-1 workload with a 60-second EMA average
wait and a window opened at the query time (so its request rate reads 0). -/
def mC2 : WorkloadMetrics :=
  { workloadID := ("wl-low"), averageWaitTime := 60 * nsPerSecond,
    windowStartTime := nowC2, lastRequestTime := nowC2 }

/-- C2 registry: only the criticality-1 workload is tracked; the fresh
criticality-5 workload has no entry (average wait 0, rate 0). -/
def wrC2 : WorkloadRegistry :=
  { windowDuration := 60 * nsPerSecond, workloads := [(("wl-low"), mC2)] }

/-- C2 policy: default config over `wrC2`. -/
def polC2 : WorkloadAwarePolicy := ⟨DefaultWorkloadAwarePolicyConfig, some wrC2⟩

/-- C2 queued item of the criticality-1 workload. -/
def itemC2low : QueueItem := ⟨("a"), 0, some ⟨("wl-low"), 1⟩⟩

/-- C2 fresh queued item of the criticality-5 workload. -/
def itemC2high : QueueItem := ⟨("b"), 0, some ⟨("wl-high"), 5⟩⟩

/-- C2: under the default weights (0.4/0.4/0.2) and caps (60s, rate 100), a
queued item whose workload has criticality 1 and average wait 60s scores
`0.4*1 + 0.4*0.2 = 0.48`, a fresh item with criticality 5 and average wait 0
scores `0.4*1.0 = 0.40`, and the criticality-1 item outscores the
criticality-5 item. -/
theorem C2_anti_starvation :
    computeScore polC2 itemC2low nowC2 = 12 / 25 ∧
    computeScore polC2 itemC2high nowC2 = 2 / 5 ∧
    computeScore polC2 itemC2high nowC2 < computeScore polC2 itemC2low nowC2 := by
  have h : ("wl-low" : String) ≠ ("wl-high") := by decide
  refine ⟨?_, ?_, ?_⟩ <;>
    norm_num [computeScore, scoreFromComponents, registryAvgWaitSeconds, registryRequestRate,
      GetMetrics, GetRequestRate, findWorkload, itemWorkloadID, effectiveCriticality,
      polC2, wrC2, mC2, itemC2low, itemC2high, nowC2, nsPerSecond,
      DefaultWorkloadAwarePolicyConfig, h]

/-- C3 counterexample: the registry-policy scoring path does not clamp — the
positive out-of-range input 6 is scored as 3, not as `clamp(6,1,5) = 5`, and
the input 0 is scored as 3, not 1. -/
theorem C3_criticality_counterexample :
    effectiveCriticality (some { workloadID := ("w"), criticality := 6 }) = 3 ∧
    effectiveCriticality (some { workloadID := ("w"), criticality := 6 }) ≠
      max 1 (min 5 (6 : Int)) ∧
    effectiveCriticality (some { workloadID := ("w"), criticality := 0 }) = 3 ∧
    effectiveCriticality (some { workloadID := ("w"), criticality := 0 }) ≠ 1 := by
  refine ⟨rfl, by decide, rfl, by decide⟩

/-- C3 (amended): in `computeScore`'s scoring path the effective criticality
is the input itself when it lies in [1,5] and exactly 3 in every other case —
absent context, zero, negative, or above 5 (no clamp-to-bound happens in this
path; in particular input 0 yields 3, and an out-of-range input scores
identically to criticality 3). -/
theorem C3_criticality_amended :
    (∀ c : WorkloadContext, c.criticality < 1 ∨ c.criticality > 5 →
      effectiveCriticality (some c) = 3) ∧
    (∀ c : WorkloadContext, 1 ≤ c.criticality → c.criticality ≤ 5 →
      effectiveCriticality (some c) = c.criticality) ∧
    effectiveCriticality none = 3 ∧
    (∀ (p : WorkloadAwarePolicy) (now t : ℚ) (i wid : String),
      computeScore p { id := i, enqueueTime := t, workloadCtx := some ⟨wid, 0⟩ } now =
        computeScore p { id := i, enqueueTime := t, workloadCtx := some ⟨wid, 3⟩ } now) := by
  refine ⟨?_, ?_, rfl, ?_⟩
  · intro c h
    simp [effectiveCriticality, h]
  · intro c h1 h5
    have : ¬(c.criticality < 1 ∨ c.criticality > 5) := by omega
    simp [effectiveCriticality, this]
  · intro p now t i wid
    norm_num [computeScore, effectiveCriticality, itemWorkloadID]

theorem C3_criticality_amended_witness :
    ((⟨("w"), 6⟩ : WorkloadContext).criticality < 1 ∨
      (⟨("w"), 6⟩ : WorkloadContext).criticality > 5) ∧
    effectiveCriticality (some ⟨("w"), 6⟩) = 3 ∧
    (1 ≤ (⟨("w"), 4⟩ : WorkloadContext).criticality ∧
      (⟨("w"), 4⟩ : WorkloadContext).criticality ≤ 5) ∧
    effectiveCriticality (some ⟨("w"), 4⟩) = (⟨("w"), 4⟩ : WorkloadContext).criticality :=
  ⟨by decide, C3_criticality_amended.1 ⟨("w"), 6⟩ (by decide), by decide,
    C3_criticality_amended.2.1 ⟨("w"), 4⟩ (by decide) (by decide)⟩

/-- C4: for every successfully parsed `x-workload-context` header whose
criticality lies outside [1,5], `extractWorkloadContext` clamps it to the
nearest bound (zero and negative values become 1, values above 5 become 5);
values inside the range pass through, and the default 3 arises for a parsed
header exactly when the criticality field is absent (a present field yields 3
only for the input 3 itself). -/
theorem C4_extract_clamps :
    (∀ (u wid : String) (c : Int), c < 1 →
      (extractWorkloadContext u (.parsed wid (some c))).criticality = 1) ∧
    (∀ (u wid : String) (c : Int), c > 5 →
      (extractWorkloadContext u (.parsed wid (some c))).criticality = 5) ∧
    (∀ (u wid : String) (c : Int), 1 ≤ c → c ≤ 5 →
      (extractWorkloadContext u (.parsed wid (some c))).criticality = c) ∧
    (∀ (u wid : String), (extractWorkloadContext u (.parsed wid none)).criticality = 3) ∧
    (∀ (u wid : String) (c : Int),
      (extractWorkloadContext u (.parsed wid (some c))).criticality = 3 → c = 3) := by
  refine ⟨?_, ?_, ?_, fun u wid => rfl, ?_⟩
  · intro u wid c h
    simp [extractWorkloadContext, h]
  · intro u wid c h
    have h1 : ¬c < 1 := by omega
    simp [extractWorkloadContext, h1, h]
  · intro u wid c h1 h5
    have hlt : ¬c < 1 := by omega
    have hgt : ¬c > 5 := by omega
    simp [extractWorkloadContext, hlt, hgt]
  · intro u wid c h
    simp only [extractWorkloadContext] at h
    split at h
    · omega
    · split at h <;> omega

theorem C4_extract_clamps_witness :
    ((0 : Int) < 1 ∧ (extractWorkloadContext ("u") (.parsed ("wl") (some 0))).criticality = 1) ∧
    ((10 : Int) > 5 ∧ (extractWorkloadContext ("u") (.parsed ("wl") (some 10))).criticality = 5) ∧
    (extractWorkloadContext ("u") (.parsed ("wl") none)).criticality = 3 :=
  ⟨⟨by decide, C4_extract_clamps.1 ("u") ("wl") 0 (by decide)⟩,
    ⟨by decide, C4_extract_clamps.2.1 ("u") ("wl") 10 (by decide)⟩,
    C4_extract_clamps.2.2.2.1 ("u") ("wl")⟩

/-- Characterisation of `Less` on two present items: `a` precedes `b` iff its
score is strictly higher, or the scores tie exactly and `a` enqueued
strictly earlier. -/
theorem Less_some_iff (p : WorkloadAwarePolicy) (now : ℚ) (a b : QueueItem) :
    Less p now (some a) (some b) = true ↔
      (computeScore p b now < computeScore p a now ∨
        (computeScore p a now = computeScore p b now ∧ a.enqueueTime < b.enqueueTime)) := by
  show (if computeScore p a now ≠ computeScore p b now
      then decide (computeScore p a now > computeScore p b now)
      else decide (a.enqueueTime < b.enqueueTime)) = true ↔ _
  by_cases h : computeScore p a now = computeScore p b now
  · rw [if_neg (not_not_intro h)]
    simp only [decide_eq_true_eq]
    constructor
    · intro ht
      exact Or.inr ⟨h, ht⟩
    · rintro (hlt | ⟨_, ht⟩)
      · rw [h] at hlt
        exact absurd hlt (lt_irrefl _)
      · exact ht
  · rw [if_pos h]
    simp only [decide_eq_true_eq, gt_iff_lt]
    constructor
    · exact Or.inl
    · rintro (hlt | ⟨heq, _⟩)
      · exact hlt
      · exact absurd heq h

/-- Policy with a nil registry for the C6 counterexample. -/
def polC6 : WorkloadAwarePolicy := ⟨DefaultWorkloadAwarePolicyConfig, none⟩

/-- Two distinct queued items (different request ids) with identical workload
context and identical enqueue time. -/
def itemC6a : QueueItem := ⟨("req-a"), 0, some ⟨("w"), 3⟩⟩

/-- See `itemC6a`. -/
def itemC6b : QueueItem := ⟨("req-b"), 0, some ⟨("w"), 3⟩⟩

/-- C6 counterexample: `Less` is not a strict total order — the two distinct
items `itemC6a ≠ itemC6b` carry equal scores and equal enqueue times, and
neither precedes the other, so totality fails. -/
theorem C6_less_counterexample :
    itemC6a ≠ itemC6b ∧
    Less polC6 0 (some itemC6a) (some itemC6b) = false ∧
    Less polC6 0 (some itemC6b) (some itemC6a) = false := by
  refine ⟨by decide, ?_, ?_⟩ <;>
  · rw [Bool.eq_false_iff]
    intro h
    rcases (Less_some_iff polC6 0 _ _).mp h with hlt | ⟨_, ht⟩
    · exact lt_irrefl _ hlt
    · exact lt_irrefl _ ht

/-- C6 (amended): `Less(a,b)` computes both scores and the higher score wins;
on an exact score tie the earlier `enqueue_time` wins (FCFS).  This yields a
strict weak order — irreflexive, asymmetric and transitive — which is total
on pairs that differ in score or enqueue time, but two distinct items with
equal score and equal enqueue time are mutually unordered (so it is not a
strict total order).  A nil item is treated as lowest priority and
`Less(nil,nil)` returns false. -/
theorem C6_less_amended :
    (∀ (p : WorkloadAwarePolicy) (now : ℚ) (a b : QueueItem),
      computeScore p b now < computeScore p a now → Less p now (some a) (some b) = true) ∧
    (∀ (p : WorkloadAwarePolicy) (now : ℚ) (a b : QueueItem),
      computeScore p a now = computeScore p b now →
      (Less p now (some a) (some b) = true ↔ a.enqueueTime < b.enqueueTime)) ∧
    (∀ (p : WorkloadAwarePolicy) (now : ℚ) (b : Option QueueItem),
      Less p now none b = false) ∧
    (∀ (p : WorkloadAwarePolicy) (now : ℚ) (a : QueueItem),
      Less p now (some a) none = true) ∧
    (∀ (p : WorkloadAwarePolicy) (now : ℚ) (x : Option QueueItem),
      Less p now x x = false) ∧
    (∀ (p : WorkloadAwarePolicy) (now : ℚ) (a b : Option QueueItem),
      Less p now a b = true → Less p now b a = false) ∧
    (∀ (p : WorkloadAwarePolicy) (now : ℚ) (a b c : Option QueueItem),
      Less p now a b = true → Less p now b c = true → Less p now a c = true) ∧
    (∀ (p : WorkloadAwarePolicy) (now : ℚ) (a b : QueueItem),
      computeScore p a now = computeScore p b now → a.enqueueTime ≠ b.enqueueTime →
      Less p now (some a) (some b) = true ∨ Less p now (some b) (some a) = true) := by
  refine ⟨?_, ?_, ?_, ?_, ?_, ?_, ?_, ?_⟩
  · intro p now a b h
    exact (Less_some_iff p now a b).mpr (Or.inl h)
  · intro p now a b h
    rw [Less_some_iff]
    constructor
    · rintro (hlt | ⟨_, ht⟩)
      · rw [h] at hlt; exact absurd hlt (lt_irrefl _)
      · exact ht
    · intro ht
      exact Or.inr ⟨h, ht⟩
  · intro p now b
    cases b <;> rfl
  · intro p now a
    rfl
  · intro p now x
    cases x with
    | none => rfl
    | some a =>
      rw [Bool.eq_false_iff]
      intro h
      rcases (Less_some_iff p now a a).mp h with hlt | ⟨_, ht⟩
      · exact absurd hlt (lt_irrefl _)
      · exact absurd ht (lt_irrefl _)
  · intro p now a b hab
    cases a with
    | none => cases b <;> simp [Less] at hab
    | some a =>
      cases b with
      | none => rfl
      | some b =>
        rw [Bool.eq_false_iff]
        intro hba
        rcases (Less_some_iff p now a b).mp hab with h1 | ⟨h1, t1⟩ <;>
          rcases (Less_some_iff p now b a).mp hba with h2 | ⟨h2, t2⟩
        · exact absurd (h1.trans h2) (lt_irrefl _)
        · rw [h2] at h1; exact absurd h1 (lt_irrefl _)
        · rw [h1] at h2; exact absurd h2 (lt_irrefl _)
        · exact absurd (t1.trans t2) (lt_irrefl _)
  · intro p now a b c hab hbc
    cases a with
    | none => cases b <;> simp [Less] at hab
    | some a =>
      cases c with
      | none => rfl
      | some c =>
        cases b with
        | none => simp [Less] at hbc
        | some b =>
          rw [Less_some_iff]
          rcases (Less_some_iff p now a b).mp hab with h1 | ⟨h1, t1⟩ <;>
            rcases (Less_some_iff p now b c).mp hbc with h2 | ⟨h2, t2⟩
          · exact Or.inl (h2.trans h1)
          · exact Or.inl (h2 ▸ h1)
          · exact Or.inl (h1 ▸ h2)
          · exact Or.inr ⟨h1.trans h2, t1.trans t2⟩
  · intro p now a b hs ht
    rcases lt_or_gt_of_ne ht with h | h
    · exact Or.inl ((Less_some_iff p now a b).mpr (Or.inr ⟨hs, h⟩))
    · exact Or.inr ((Less_some_iff p now b a).mpr (Or.inr ⟨hs.symm, h⟩))

/-- Item enqueued later than `itemC6a`, same workload context. -/
def itemC6later : QueueItem := ⟨("req-c"), nsPerSecond, some ⟨("w"), 3⟩⟩

theorem C6_less_amended_witness :
    computeScore polC6 itemC6a 0 = computeScore polC6 itemC6later 0 ∧
    (Less polC6 0 (some itemC6a) (some itemC6later) = true ↔
      itemC6a.enqueueTime < itemC6later.enqueueTime) :=
  ⟨rfl, C6_less_amended.2.1 polC6 0 itemC6a itemC6later rfl⟩

/-- Query time for the C7 counterexample. -/
def nowC7 : ℚ := 500 * nsPerSecond

/-- Workload metrics with a 70-second EMA wait (window opened at query time,
so the request rate reads 0). -/
def mC7a : WorkloadMetrics :=
  { workloadID := ("w"), averageWaitTime := 70 * nsPerSecond,
    windowStartTime := nowC7, lastRequestTime := nowC7 }

/-- Same as `mC7a` but with an 80-second EMA wait. -/
def mC7b : WorkloadMetrics :=
  { workloadID := ("w"), averageWaitTime := 80 * nsPerSecond,
    windowStartTime := nowC7, lastRequestTime := nowC7 }

/-- Registry tracking the 70-second-wait workload. -/
def wrC7a : WorkloadRegistry :=
  { windowDuration := 60 * nsPerSecond, workloads := [(("w"), mC7a)] }

/-- Registry tracking the 80-second-wait workload. -/
def wrC7b : WorkloadRegistry :=
  { windowDuration := 60 * nsPerSecond, workloads := [(("w"), mC7b)] }

/-- Default-config policies over the two C7 registries. -/
def polC7a : WorkloadAwarePolicy := ⟨DefaultWorkloadAwarePolicyConfig, some wrC7a⟩

/-- See `polC7a`. -/
def polC7b : WorkloadAwarePolicy := ⟨DefaultWorkloadAwarePolicyConfig, some wrC7b⟩

/-- The queued item scored in the C7 counterexample. -/
def itemC7 : QueueItem := ⟨("i"), 0, some ⟨("w"), 3⟩⟩

/-- C7 counterexample: the score is not strictly increasing in the workload's
average wait time for all values — raising the average wait from 70s to 80s
(criticality and rate held fixed) leaves the score unchanged, because the
wait component is capped at `max_wait_seconds = 60`. -/
theorem C7_monotonicity_counterexample :
    registryAvgWaitSeconds (some wrC7a) ("w") = 70 ∧
    registryAvgWaitSeconds (some wrC7b) ("w") = 80 ∧
    registryRequestRate (some wrC7a) nowC7 ("w") = registryRequestRate (some wrC7b) nowC7 ("w") ∧
    computeScore polC7a itemC7 nowC7 = computeScore polC7b itemC7 nowC7 := by
  refine ⟨?_, ?_, ?_, ?_⟩ <;>
    norm_num [computeScore, scoreFromComponents, registryAvgWaitSeconds, registryRequestRate,
      GetMetrics, GetRequestRate, findWorkload, itemWorkloadID, effectiveCriticality,
      polC7a, polC7b, wrC7a, wrC7b, mC7a, mC7b, itemC7, nowC7, nsPerSecond,
      DefaultWorkloadAwarePolicyConfig]

/-- C7 (amended): under the default configuration the score is strictly
increasing in criticality over 1..5 (any wait and rate fixed); strictly
increasing in average wait time on `[0, max_wait_seconds]` and constant above
the cap; strictly decreasing in request rate on `[0, max_request_rate]` and
constant above the cap. -/
theorem C7_monotonicity_amended :
    (∀ (c1 c2 : Int) (w r : ℚ), 1 ≤ c1 → c1 < c2 → c2 ≤ 5 →
      scoreFromComponents DefaultWorkloadAwarePolicyConfig c1 w r <
        scoreFromComponents DefaultWorkloadAwarePolicyConfig c2 w r) ∧
    (∀ (c : Int) (w1 w2 r : ℚ), 0 ≤ w1 → w1 < w2 → w2 ≤ 60 →
      scoreFromComponents DefaultWorkloadAwarePolicyConfig c w1 r <
        scoreFromComponents DefaultWorkloadAwarePolicyConfig c w2 r) ∧
    (∀ (c : Int) (w r1 r2 : ℚ), 0 ≤ r1 → r1 < r2 → r2 ≤ 100 →
      scoreFromComponents DefaultWorkloadAwarePolicyConfig c w r2 <
        scoreFromComponents DefaultWorkloadAwarePolicyConfig c w r1) ∧
    (∀ (c : Int) (w1 w2 r : ℚ), 60 ≤ w1 → 60 ≤ w2 →
      scoreFromComponents DefaultWorkloadAwarePolicyConfig c w1 r =
        scoreFromComponents DefaultWorkloadAwarePolicyConfig c w2 r) ∧
    (∀ (c : Int) (w r1 r2 : ℚ), 100 ≤ r1 → 100 ≤ r2 →
      scoreFromComponents DefaultWorkloadAwarePolicyConfig c w r1 =
        scoreFromComponents DefaultWorkloadAwarePolicyConfig c w r2) := by
  refine ⟨?_, ?_, ?_, ?_, ?_⟩
  · intro c1 c2 w r h1 hlt h5
    have hc : (c1 : ℚ) < (c2 : ℚ) := by exact_mod_cast hlt
    simp only [scoreFromComponents, DefaultWorkloadAwarePolicyConfig]
    have : (c1 : ℚ) / 5 * (2 / 5) < (c2 : ℚ) / 5 * (2 / 5) := by linarith
    linarith
  · intro c w1 w2 r h0 hlt h60
    simp only [scoreFromComponents, DefaultWorkloadAwarePolicyConfig]
    rw [min_eq_left (by linarith : w1 / 60 ≤ 1), min_eq_left (by linarith : w2 / 60 ≤ 1)]
    have : w1 / 60 < w2 / 60 := by linarith
    linarith
  · intro c w r1 r2 h0 hlt h100
    simp only [scoreFromComponents, DefaultWorkloadAwarePolicyConfig]
    rw [min_eq_left (by linarith : r1 / 100 ≤ 1), min_eq_left (by linarith : r2 / 100 ≤ 1)]
    have : r1 / 100 < r2 / 100 := by linarith
    linarith
  · intro c w1 w2 r h1 h2
    simp only [scoreFromComponents, DefaultWorkloadAwarePolicyConfig]
    rw [min_eq_right (by linarith : (1 : ℚ) ≤ w1 / 60),
      min_eq_right (by linarith : (1 : ℚ) ≤ w2 / 60)]
  · intro c w r1 r2 h1 h2
    simp only [scoreFromComponents, DefaultWorkloadAwarePolicyConfig]
    rw [min_eq_right (by linarith : (1 : ℚ) ≤ r1 / 100),
      min_eq_right (by linarith : (1 : ℚ) ≤ r2 / 100)]

theorem C7_monotonicity_amended_witness :
    ((1 : Int) ≤ 1 ∧ (1 : Int) < 5 ∧ (5 : Int) ≤ 5) ∧
    scoreFromComponents DefaultWorkloadAwarePolicyConfig 1 0 0 <
      scoreFromComponents DefaultWorkloadAwarePolicyConfig 5 0 0 ∧
    ((0 : ℚ) ≤ 0 ∧ (0 : ℚ) < 30 ∧ (30 : ℚ) ≤ 60) ∧
    scoreFromComponents DefaultWorkloadAwarePolicyConfig 3 0 0 <
      scoreFromComponents DefaultWorkloadAwarePolicyConfig 3 30 0 ∧
    ((0 : ℚ) ≤ 0 ∧ (0 : ℚ) < 50 ∧ (50 : ℚ) ≤ 100) ∧
    scoreFromComponents DefaultWorkloadAwarePolicyConfig 3 0 50 <
      scoreFromComponents DefaultWorkloadAwarePolicyConfig 3 0 0 :=
  ⟨⟨by norm_num, by norm_num, by norm_num⟩,
    C7_monotonicity_amended.1 1 5 0 0 (by norm_num) (by norm_num) (by norm_num),
    ⟨by norm_num, by norm_num, by norm_num⟩,
    C7_monotonicity_amended.2.1 3 0 30 0 (by norm_num) (by norm_num) (by norm_num),
    ⟨by norm_num, by norm_num, by norm_num⟩,
    C7_monotonicity_amended.2.2.1 3 0 0 50 (by norm_num) (by norm_num) (by norm_num)⟩

end WorkloadAware
